import Mathlib

/-!
Verification of the dependency-change classifier and file-change resolver of
the npm-version-check action (src/index.js), over a shallow embedding of the
JavaScript source into Lean.

JSON-like JavaScript values are modelled by the inductive type `JSVal`
(a tree model: every object node is a fresh reference, which is exactly the
shape `JSON.parse` produces).  A separate heap model (`HVal`, `Heap`) at the
end of the file captures reference identity and the mutable `WeakSet` used by
`deepEqual`, which is needed to analyse its behaviour on values that share
sub-objects.
-/

namespace NpmCheck

/-- A JavaScript value as it appears in parsed JSON documents, plus
`undefined` (the result of reading an absent property).  Arrays are
modelled as objects whose `isArr` tag is true and whose keys are the index
strings "0", "1", ... — this mirrors the source, which never discriminates
arrays from plain objects (`deepEqual` only uses `typeof` and `Object.keys`,
which agree on both). -/
inductive JSVal where
  | undefined : JSVal
  | null : JSVal
  | boolean (b : Bool) : JSVal
  | number (n : Int) : JSVal
  | string (s : String) : JSVal
  | object (isArr : Bool) (fields : List (String × JSVal)) : JSVal

/-- JavaScript strict equality `===`, restricted to the tree model: primitive
values compare by value; two object operands are treated as distinct
references (fresh-tree semantics, as for values built by `JSON.parse`). -/
def strictEqTree : JSVal → JSVal → Bool
  | .undefined, .undefined => true
  | .null, .null => true
  | .boolean x, .boolean y => x == y
  | .number x, .number y => x == y
  | .string x, .string y => x == y
  | _, _ => false

/-- JavaScript `typeof` (note `typeof null` is "object"). -/
def jsTypeof : JSVal → String
  | .undefined => "undefined"
  | .null => "object"
  | .boolean _ => "boolean"
  | .number _ => "number"
  | .string _ => "string"
  | .object _ _ => "object"

/-- `Object.prototype.hasOwnProperty.call(o, k)` for an object with field
list `fs`. -/
def hasOwn (fs : List (String × JSVal)) (k : String) : Bool :=
  fs.any (fun p => p.1 == k)

/-- Property read on a field list, with a default for an absent key. -/
def lookupD (fs : List (String × JSVal)) (k : String) (d : JSVal) : JSVal :=
  match fs.find? (fun p => p.1 == k) with
  | some p => p.2
  | none => d

/-- JavaScript property access `v[k]` (and the optional-chained `v?.[k]`):
reading a key of an object yields the stored value or `undefined`; reading a
property of `null`/`undefined` through `?.` yields `undefined`.  The
primitive cases are only ever reached in the source through `?.` access on
parsed-JSON sub-documents. -/
def jsGet (v : JSVal) (k : String) : JSVal :=
  match v with
  | .object _ fs => lookupD fs k .undefined
  | _ => .undefined

/-- JavaScript truthiness of a value. -/
def truthy : JSVal → Bool
  | .undefined => false
  | .null => false
  | .boolean b => b
  | .number n => !(n == 0)
  | .string s => !(s == "")
  | .object _ _ => true

mutual

/-- `deepEqual(a, b)` from src/index.js lines 455-474, specialised to the
tree model, where the `WeakSet` cycle guard is dead code: every object node
of a tree value is a fresh reference, so no object is ever revisited (the
heap model below keeps the guard to study shared structures).  Steps mirror
the source: `===` short circuit, `typeof` mismatch, the non-object/null
bailout, key-count comparison, then the per-key loop. -/
def deepEqual (a b : JSVal) : Bool :=
  if strictEqTree a b then true
  else if !(jsTypeof a == jsTypeof b) then false
  else
    match a, b with
    | .object _ fa, .object _ fb => fa.length == fb.length && deepEqualFields fa fb
    | _, _ => false
termination_by structural a

/-- The `for (const key of aKeys)` loop of `deepEqual`: each own key of `a`
must be an own key of `b` with a deeply equal value. -/
def deepEqualFields : (l : List (String × JSVal)) → List (String × JSVal) → Bool
  | [], _ => true
  | (k, v) :: rest, fb =>
    hasOwn fb k && deepEqual v (lookupD fb k .undefined) && deepEqualFields rest fb
termination_by structural l => l

end

/-! ### String primitives

Models of the JavaScript string methods used by the source, written over
character lists so that they compute by kernel reduction.  They agree with
the JavaScript methods on the ASCII strings handled here. -/

/-- `String.prototype.trim` (leading and trailing whitespace removed). -/
def jsTrim (s : String) : String :=
  String.mk (((s.toList.dropWhile Char.isWhitespace).reverse.dropWhile Char.isWhitespace).reverse)

/-- `String.prototype.toLowerCase` for ASCII content. -/
def jsToLower (s : String) : String :=
  String.mk (s.toList.map Char.toLower)

/-- Is `pat` a prefix of `l`? -/
def charsPrefixOf : List Char → List Char → Bool
  | [], _ => true
  | _ :: _, [] => false
  | a :: as, b :: bs => a == b && charsPrefixOf as bs

/-- Does `pat` occur as a contiguous run inside `l`? -/
def charsInfixOf (pat : List Char) : List Char → Bool
  | [] => charsPrefixOf pat []
  | c :: rest => charsPrefixOf pat (c :: rest) || charsInfixOf pat rest

/-- `String.prototype.includes`. -/
def jsIncludes (s pat : String) : Bool :=
  charsInfixOf pat.toList s.toList

/-- `String.prototype.startsWith`. -/
def jsStartsWith (s pat : String) : Bool :=
  charsPrefixOf pat.toList s.toList

/-- `String.prototype.split` at the `/` character (as in `file.split('/')`). -/
def splitSlash : List Char → List (List Char)
  | [] => [[]]
  | c :: rest =>
    let r := splitSlash rest
    if c == '/' then [] :: r
    else
      match r with
      | h :: t => (c :: h) :: t
      | [] => [[c]]

/-- The `/`-separated segments of a path, as produced by `path.split('/')`. -/
def pathSegments (s : String) : List String :=
  (splitSlash s.toList).map String.mk

/-- Node `path.basename` for the forward-slash paths handled by the action
(last `/`-separated segment). -/
def pathBasename (s : String) : String :=
  (pathSegments s).getLastD s

/-- Index of the last `.` in a character list, if any. -/
def lastDotIdx (b : List Char) : Option Nat :=
  (List.range b.length).foldl
    (fun acc i => if b.get? i == some '.' then some i else acc) none

/-- Node `path.extname`: the extension of the final path segment, from its
last `.` to the end; empty when the segment has no `.`, or only a leading
one (dotfiles such as `.bashrc` have no extension). -/
def pathExtname (s : String) : String :=
  let b := (pathBasename s).toList
  match lastDotIdx b with
  | some i => if i == 0 then "" else String.mk (b.drop i)
  | none => ""

/-! ### Safe reference resolver (sanitizeSHA, sanitizeFilePath) -/

/-- The characters of the `SHELL_INJECTION_CHARS` pattern
(semicolon, ampersand, pipe, backquote, dollar, parentheses, single and
double quote, angle brackets). -/
def shellInjectionChars : List Char := ";&|\x60$()\x27\x22<>".toList

/-- Does the string contain a shell-metacharacter (the
`SHELL_INJECTION_CHARS.test` check)? -/
def hasShellChar (s : String) : Bool :=
  s.toList.any (fun c => shellInjectionChars.contains c)

/-- One character of the `SHA_PATTERN` class `[a-f0-9]` (case-insensitive). -/
def isShaChar (c : Char) : Bool :=
  c.isDigit || (Char.ofNat 97 ≤ c && c ≤ Char.ofNat 102) || (Char.ofNat 65 ≤ c && c ≤ Char.ofNat 70)

/-- The `SHA_PATTERN` test: 7 to 40 hexadecimal characters, anchored. -/
def shaPatternTest (s : String) : Bool :=
  decide (7 ≤ s.length) && decide (s.length ≤ 40) && s.toList.all isShaChar

/-- `sanitizeSHA(sha, refName)` from src/index.js lines 165-184: reject the
empty string, trim, reject a non-`SHA_PATTERN` shape, reject shell
metacharacters, otherwise return the cleaned value.  A thrown `Error` is
modelled as `Except.error` carrying the message. -/
def sanitizeSHA (sha refName : String) : Except String String :=
  if sha == "" then .error ("Invalid " ++ refName ++ ": must be a non-empty string")
  else
    let cleanSha := jsTrim sha
    if !shaPatternTest cleanSha then
      .error ("Invalid " ++ refName ++ " format: " ++ cleanSha ++
        ". Must be a valid git SHA (7-40 hex characters)")
    else if hasShellChar cleanSha then
      .error ("Invalid " ++ refName ++ ": contains dangerous characters")
    else .ok cleanSha

/-- `sanitizeFilePath(filePath, pathName)` from src/index.js lines 193-221:
reject the empty string, trim, then reject shell metacharacters, a `..`
occurrence, a leading `/` and a leading `-`; otherwise return the trimmed
path. -/
def sanitizeFilePath (filePath pathName : String) : Except String String :=
  if filePath == "" then .error ("Invalid " ++ pathName ++ ": must be a non-empty string")
  else
    let cleanPath := jsTrim filePath
    if hasShellChar cleanPath then
      .error ("Invalid " ++ pathName ++ ": contains dangerous characters")
    else if jsIncludes cleanPath ".." then
      .error ("Invalid " ++ pathName ++ ": path traversal not allowed")
    else if jsStartsWith cleanPath "/" then
      .error ("Invalid " ++ pathName ++ ": absolute paths not allowed")
    else if jsStartsWith cleanPath "-" then
      .error ("Invalid " ++ pathName ++ ": paths starting with \x27-\x27 not allowed")
    else .ok cleanPath

/-! ### File relevance filter -/

/-- `JS_TS_EXTENSIONS`. -/
def JS_TS_EXTENSIONS : List String := [".js", ".ts", ".jsx", ".tsx"]

/-- `RELEVANT_EXTENSIONS` = the JS/TS extensions plus `.json`. -/
def RELEVANT_EXTENSIONS : List String := JS_TS_EXTENSIONS ++ [".json"]

/-- `EXCLUDED_DIRECTORIES`. -/
def EXCLUDED_DIRECTORIES : List String :=
  ["test", "tests", "__tests__", "doc", "docs", "example", "examples",
   "script", "scripts", ".github", ".vscode", "coverage", "dist", "build",
   "node_modules"]

/-- `EXCLUDED_FILE_PATTERNS`. -/
def EXCLUDED_FILE_PATTERNS : List String := [".test.", ".spec.", ".config."]

/-- `EXCLUDED_FILE_START_PATTERNS`. -/
def EXCLUDED_FILE_START_PATTERNS : List String := ["test.", "spec."]

/-- `PACKAGE_FILENAMES`. -/
def PACKAGE_FILENAMES : List String := ["package.json", "package-lock.json"]

/-- `isRelevantFile(file)` from src/index.js lines 375-427: require a
relevant extension; drop files under an excluded directory segment, files
whose path contains an excluded infix, and filenames with an excluded
prefix; drop the two package files; finally require a JS/TS extension. -/
def isRelevantFile (file : String) : Bool :=
  let fileExtension := pathExtname file
  if !(RELEVANT_EXTENSIONS.contains fileExtension) then false
  else
    let matchesDirectory := fun dirName =>
      ((pathSegments file).dropLast).contains dirName
    let matchesFilePattern := fun pattern => jsIncludes file pattern
    let filenameStartsWith := fun pattern => jsStartsWith (pathBasename file) pattern
    let isTestOrNonProdFile :=
      EXCLUDED_DIRECTORIES.any matchesDirectory ||
      EXCLUDED_FILE_PATTERNS.any matchesFilePattern ||
      EXCLUDED_FILE_START_PATTERNS.any filenameStartsWith
    if isTestOrNonProdFile then false
    else if PACKAGE_FILENAMES.contains (pathBasename file) then false
    else JS_TS_EXTENSIONS.contains fileExtension

/-- `hasRelevantFileChanges(changedFiles)`. -/
def hasRelevantFileChanges (changedFiles : List String) : Bool :=
  changedFiles.any (fun file => isRelevantFile file)

/-! ### Commit-scoped change aggregator -/

/-- A PR commit as returned by `getCommitsWithMessages`. -/
structure Commit where
  sha : String
  message : String

/-- The record returned by `getChangedFilesWithSkipSupport`. -/
structure SkipResult where
  files : List String
  skippedCommits : Nat
  totalCommits : Nat
deriving DecidableEq, Repr

/-- The skip test from src/index.js line 343:
`skipKeyword && commit.message.toLowerCase().includes(skipKeyword.toLowerCase())`
(an empty keyword is falsy, so nothing is skipped). -/
def shouldSkipCommit (skipKeyword : String) (c : Commit) : Bool :=
  !(skipKeyword == "") && jsIncludes (jsToLower c.message) (jsToLower skipKeyword)

/-- `Set.prototype.add` on a list kept in insertion order. -/
def addUnique (acc : List String) (f : String) : List String :=
  if acc.contains f then acc else acc ++ [f]

/-- `getChangedFilesWithSkipSupport(skipKeyword, token)` from src/index.js
lines 325-370, with the two collaborator calls supplied as inputs: `commits`
stands for the result of `getCommitsWithMessages` and `fetchFiles sha` for
the file list `getFilesForCommit` yields for a commit (an individual fetch
failure surfaces there as an empty list).  Commits whose message matches the
keyword are skipped; the files of the remaining commits are collected into a
deduplicating set. -/
def getChangedFilesWithSkipSupport (skipKeyword : String) (commits : List Commit)
    (fetchFiles : String → List String) : SkipResult :=
  if commits.isEmpty then ⟨[], 0, 0⟩
  else
    let skippedCommits := (commits.filter (fun c => shouldSkipCommit skipKeyword c)).length
    let nonSkippedCommits := commits.filter (fun c => !shouldSkipCommit skipKeyword c)
    let fileResults := nonSkippedCommits.map (fun c => fetchFiles c.sha)
    let files := fileResults.foldl (fun acc fs => fs.foldl addUnique acc) []
    ⟨files, skippedCommits, commits.length⟩

/-! ### Lockfile classifier building blocks -/

/-- The empty object literal. -/
def emptyObj : JSVal := .object false []

/-- JavaScript `a || b`. -/
def jsOr (a b : JSVal) : JSVal := if truthy a then a else b

/-- `Object.keys` for the values those call sites can see: the own keys of
an object; the `|| \x7b\x7d` guard at each call site turns `null`/`undefined`
into the empty object first, so other cases yield no keys. -/
def jsKeys : JSVal → List String
  | .object _ fs => fs.map (fun p => p.1)
  | _ => []

/-- The `significantProps` list of `isOnlyMetadataChange`. -/
def significantProps : List String :=
  ["version", "resolved", "integrity", "dependencies", "requires"]

/-- `isOnlyMetadataChange(basePackage, headPackage)` from src/index.js lines
482-499: false when either entry is missing (falsy); otherwise true exactly
when none of the five significant properties differ. -/
def isOnlyMetadataChange (basePackage headPackage : JSVal) : Bool :=
  if !truthy basePackage || !truthy headPackage then false
  else significantProps.all (fun prop =>
    deepEqual (jsGet basePackage prop) (jsGet headPackage prop))

/-- `getChangedPackageKeys(baseObj, headObj)` from src/index.js lines
508-533: the union of the keys of both maps, minus the root `""` entry,
keeping a key when its two entries are deeply unequal and the difference is
not metadata-only.  The JavaScript `Set` is modelled as a duplicate-free
list in insertion order. -/
def getChangedPackageKeys (baseObj headObj : JSVal) : List String :=
  let allKeys := (jsKeys (jsOr baseObj emptyObj) ++ jsKeys (jsOr headObj emptyObj)).foldl addUnique []
  allKeys.filter (fun key =>
    !(key == "") &&
    !deepEqual (jsGet baseObj key) (jsGet headObj key) &&
    !isOnlyMetadataChange (jsGet baseObj key) (jsGet headObj key))

/-- `areAllChangesDevDependencies(baseLock, headLock, changedKeys)` from
src/index.js lines 542-568: in the modern `packages` shape, every changed
key must be dev-marked in head when still present, or dev-marked in base
when removed; the legacy shape conservatively yields false. -/
def areAllChangesDevDependencies (baseLock headLock : JSVal)
    (changedKeys : List String) : Bool :=
  if truthy (jsGet headLock "packages") || truthy (jsGet baseLock "packages") then
    let basePackages := jsOr (jsGet baseLock "packages") emptyObj
    let headPackages := jsOr (jsGet headLock "packages") emptyObj
    changedKeys.all (fun key =>
      let basePackage := jsGet basePackages key
      let headPackage := jsGet headPackages key
      !(truthy headPackage && !truthy (jsGet headPackage "dev")) &&
      !(truthy basePackage && !truthy headPackage && !truthy (jsGet basePackage "dev")))
  else false

/-! ### hasPackageDependencyChanges -/

/-- The verdict object returned by `hasPackageDependencyChanges`. -/
structure Verdict where
  hasChanges : Bool
  onlyDevDependencies : Bool
deriving DecidableEq, Repr

/-- The effect of one file-comparison block inside
`hasPackageDependencyChanges`: either an early `return` with a verdict, or
fall-through with the updated `hasProductionChanges` / `hasAnyDevChanges`
flags. -/
inductive StepResult where
  | ret (v : Verdict) : StepResult
  | cont (prod dev : Bool) : StepResult
deriving DecidableEq, Repr

/-- A fetched file at one revision: `none` models `getFileAtRef` returning
`null` (file absent); `some none` models present content that `JSON.parse`
rejects; `some (some v)` models content parsing to `v`.  Present content is
never the empty string (`getFileAtRef` trims and maps it to `null`), so
presence coincides with JavaScript truthiness of the raw string. -/
abbrev RawFile := Option (Option JSVal)

/-- The `productionSections` list of the package.json block. -/
def productionSections : List String :=
  ["dependencies", "peerDependencies", "optionalDependencies",
   "bundleDependencies", "bundledDependencies"]

/-- The package.json block of `hasPackageDependencyChanges` (src/index.js
lines 614-663): with both raw contents present, a parse failure of either is
caught and returns the conservative verdict; otherwise any differing
production section raises the production flag, and a differing
`devDependencies` section raises the dev flag (escalated to production when
`includeDev` is set).  With exactly one content present the block returns
the conservative verdict; with both absent it falls through unchanged. -/
def packageJsonStep (includeDev : Bool) (baseRaw headRaw : RawFile)
    (prod dev : Bool) : StepResult :=
  match baseRaw, headRaw with
  | some baseParse, some headParse =>
    match baseParse, headParse with
    | some basePackageJson, some headPackageJson =>
      let prod1 := prod || productionSections.any (fun sec =>
        !deepEqual (jsGet basePackageJson sec) (jsGet headPackageJson sec))
      if !deepEqual (jsGet basePackageJson "devDependencies")
          (jsGet headPackageJson "devDependencies") then
        .cont (if includeDev then true else prod1) true
      else .cont prod1 dev
    | _, _ => .ret ⟨true, false⟩
  | none, none => .cont prod dev
  | _, _ => .ret ⟨true, false⟩

/-- The package-lock.json block of `hasPackageDependencyChanges`
(src/index.js lines 666-726): parse failures and one-sided presence behave
as in the package.json block; otherwise, when either the legacy
`dependencies` or the modern `packages` map differs, the changed keys are
computed (preferring the modern shape), metadata-only diffs are dropped, and
the remaining keys either raise the dev flag (all dev-only, escalated under
`includeDev`) or the production flag. -/
def packageLockStep (includeDev : Bool) (baseRaw headRaw : RawFile)
    (prod dev : Bool) : StepResult :=
  match baseRaw, headRaw with
  | some baseParse, some headParse =>
    match baseParse, headParse with
    | some baseLock, some headLock =>
      let dependenciesChanged :=
        !deepEqual (jsGet baseLock "dependencies") (jsGet headLock "dependencies")
      let packagesChanged :=
        !deepEqual (jsGet baseLock "packages") (jsGet headLock "packages")
      if dependenciesChanged || packagesChanged then
        let changedKeys :=
          if packagesChanged then
            getChangedPackageKeys (jsGet baseLock "packages") (jsGet headLock "packages")
          else
            getChangedPackageKeys (jsGet baseLock "dependencies") (jsGet headLock "dependencies")
        if changedKeys.isEmpty then .cont prod dev
        else if areAllChangesDevDependencies baseLock headLock changedKeys then
          .cont (if includeDev then true else prod) true
        else .cont true dev
      else .cont prod dev
    | _, _ => .ret ⟨true, false⟩
  | none, none => .cont prod dev
  | _, _ => .ret ⟨true, false⟩

/-- JavaScript truthiness of a string-or-undefined value (the
`!baseRef || !headRef` check: absent or empty is falsy). -/
def optStrTruthy : Option String → Bool
  | some s => !(s == "")
  | none => false

/-- The data `hasPackageDependencyChanges` consumes, with each collaborator
read supplied as a field: the event kind and revision pair from the GitHub
context, the optional changed-file filter argument, the
`include-dev-dependencies` input, and the four `getFileAtRef` fetch results
(with their parse outcomes). -/
structure ClassifierInput where
  eventIsPR : Bool
  baseRef : Option String
  headRef : Option String
  changedFiles : Option (List String)
  includeDevDependencies : Bool
  basePackageJsonRaw : RawFile
  headPackageJsonRaw : RawFile
  basePackageLockRaw : RawFile
  headPackageLockRaw : RawFile

/-- The `changedFiles === null || changedFiles.some(f => basename(f) ===
PACKAGE_JSON_FILENAME)` test. -/
def shouldCheckPackageJson (changedFiles : Option (List String)) : Bool :=
  changedFiles.isNone ||
    (changedFiles.getD []).any (fun f => pathBasename f == "package.json")

/-- The corresponding test for `package-lock.json`. -/
def shouldCheckPackageLock (changedFiles : Option (List String)) : Bool :=
  changedFiles.isNone ||
    (changedFiles.getD []).any (fun f => pathBasename f == "package-lock.json")

/-- The body of the `try` block of `hasPackageDependencyChanges`
(src/index.js lines 579-735): guard on the event and refs, sanitize both
refs (a thrown validation error surfaces as `Except.error` here), filter
which package files to inspect, run the package.json and package-lock.json
blocks, and combine the flags into the final verdict. -/
def hasPackageDependencyChangesCore (inp : ClassifierInput) : Except String Verdict :=
  if !inp.eventIsPR then .ok ⟨false, false⟩
  else if !optStrTruthy inp.baseRef || !optStrTruthy inp.headRef then .ok ⟨false, false⟩
  else
    match sanitizeSHA (inp.baseRef.getD "") "baseRef" with
    | .error e => .error e
    | .ok _ =>
      match sanitizeSHA (inp.headRef.getD "") "headRef" with
      | .error e => .error e
      | .ok _ =>
        if !shouldCheckPackageJson inp.changedFiles &&
            !shouldCheckPackageLock inp.changedFiles then .ok ⟨false, false⟩
        else
          let step1 :=
            if shouldCheckPackageJson inp.changedFiles then
              packageJsonStep inp.includeDevDependencies
                inp.basePackageJsonRaw inp.headPackageJsonRaw false false
            else .cont false false
          match step1 with
          | .ret v => .ok v
          | .cont prod1 dev1 =>
            let step2 :=
              if shouldCheckPackageLock inp.changedFiles then
                packageLockStep inp.includeDevDependencies
                  inp.basePackageLockRaw inp.headPackageLockRaw prod1 dev1
              else .cont prod1 dev1
            match step2 with
            | .ret v => .ok v
            | .cont prod2 dev2 =>
              .ok (if prod2 then ⟨true, false⟩
                else if dev2 then ⟨false, true⟩
                else ⟨false, false⟩)

/-- `hasPackageDependencyChanges` itself: the whole body runs inside
`try ... catch`, and the catch-all at src/index.js lines 736-740 converts
any thrown error — including the `sanitizeSHA` validation errors — into the
conservative verdict, so the function always returns a verdict object. -/
def hasPackageDependencyChanges (inp : ClassifierInput) : Verdict :=
  match hasPackageDependencyChangesCore inp with
  | .ok v => v
  | .error _ => ⟨true, false⟩

/-! ### Heap model of deepEqual

The `WeakSet` guard of `deepEqual` observes object identity, which the tree
model cannot express.  Here values are `HVal` (primitives or references into
a heap), the heap maps addresses to field lists, and the visited set is the
list of addresses added so far, threaded through the recursion exactly as
the shared mutable `WeakSet` is in the source. -/

/-- A JavaScript value with explicit references. -/
inductive HVal where
  | undefined : HVal
  | null : HVal
  | boolean (b : Bool) : HVal
  | number (n : Int) : HVal
  | string (s : String) : HVal
  | ref (a : Nat) : HVal
deriving DecidableEq, Repr

/-- A heap: the object at address `a` is `objs[a]`, a field list whose
values may themselves be references. -/
structure Heap where
  objs : List (List (String × HVal))

/-- `===` on heap values: primitives by value, references by address. -/
def strictEqH : HVal → HVal → Bool
  | .undefined, .undefined => true
  | .null, .null => true
  | .boolean x, .boolean y => x == y
  | .number x, .number y => x == y
  | .string x, .string y => x == y
  | .ref x, .ref y => x == y
  | _, _ => false

/-- `typeof` on heap values. -/
def typeofH : HVal → String
  | .undefined => "undefined"
  | .null => "object"
  | .boolean _ => "boolean"
  | .number _ => "number"
  | .string _ => "string"
  | .ref _ => "object"

/-- The field list stored at an address. -/
def derefH (h : Heap) (a : Nat) : List (String × HVal) :=
  (h.objs.get? a).getD []

/-- Field lookup on a heap object, `undefined` when absent. -/
def lookupH (fs : List (String × HVal)) (k : String) : HVal :=
  match fs.find? (fun p => p.1 == k) with
  | some p => p.2
  | none => .undefined

/-- The `for (const key of aKeys)` loop of `deepEqual`, over heap objects:
`recur` is the recursive call at the next depth; the visited set mutated by
a nested call is passed on to the comparison of the next key, as the shared
`WeakSet` is in the source.  A failed key comparison returns immediately. -/
def fieldsLoopH (recur : HVal → HVal → List Nat → Bool × List Nat) :
    List (String × HVal) → List (String × HVal) → List Nat → Bool × List Nat
  | [], _, vis => (true, vis)
  | (k, v) :: rest, fb, vis =>
    if !(fb.any (fun p => p.1 == k)) then (false, vis)
    else
      let p := recur v (lookupH fb k) vis
      if !p.1 then p
      else fieldsLoopH recur rest fb p.2

/-- `deepEqual(a, b, visited)` over the heap, following src/index.js lines
455-474 step by step: the `===` short circuit, the `typeof` mismatch and
non-object bailouts, then — for two distinct references — the visited
check `visited.has(a) || visited.has(b)`, which falls back to `===` when it
fires; otherwise both addresses are added and the key sets are compared.
`fuel` bounds the recursion depth (the source recursion is unbounded; every
theorem below applies this at a fuel exceeding the relevant object depth). -/
def deepEqualH (h : Heap) : Nat → HVal → HVal → List Nat → Bool × List Nat
  | 0, _, _, vis => (false, vis)
  | fuel + 1, a, b, vis =>
    if strictEqH a b then (true, vis)
    else if !(typeofH a == typeofH b) then (false, vis)
    else
      match a, b with
      | .ref ra, .ref rb =>
        if vis.contains ra || vis.contains rb then (strictEqH a b, vis)
        else
          let vis2 := vis ++ [ra, rb]
          let fa := derefH h ra
          let fb := derefH h rb
          if !(fa.length == fb.length) then (false, vis2)
          else fieldsLoopH (fun x y w => deepEqualH h fuel x y w) fa fb vis2
      | _, _ => (false, vis)

/-- Unfold a heap value into a tree `JSVal`, up to `fuel` levels: `recur`
unfolds each field value.  Yields `none` only when the depth bound is hit. -/
def treeFieldsH (recur : HVal → Option JSVal) :
    List (String × HVal) → Option (List (String × JSVal))
  | [] => some []
  | (k, v) :: rest =>
    match recur v, treeFieldsH recur rest with
    | some t, some ts => some ((k, t) :: ts)
    | _, _ => none

/-- The tree unfolding of a heap value: two heap values with the same
unfolding are structurally equal (same shape, key sets and leaf values),
whatever sharing the heap uses to represent them. -/
def toTreeH (h : Heap) : Nat → HVal → Option JSVal
  | 0, _ => none
  | fuel + 1, v =>
    match v with
    | .ref a => (treeFieldsH (fun w => toTreeH h fuel w) (derefH h a)).map (JSVal.object false)
    | .undefined => some .undefined
    | .null => some .null
    | .boolean b => some (.boolean b)
    | .number n => some (.number n)
    | .string s => some (.string s)

/-- A heap with internal sharing but no cycle: address 0 holds `x`, an
object both fields of `a` (address 3) point to; addresses 1 and 2 hold two
structurally identical but distinct objects, the fields of `b` (address 4).
In source terms: `const x = \x7bp: 1\x7d; const a = \x7bu: x, v: x\x7d;
const b = \x7bu: \x7bp: 1\x7d, v: \x7bp: 1\x7d\x7d;`. -/
def sharedHeap : Heap :=
  ⟨[[("p", .number 1)],
    [("p", .number 1)],
    [("p", .number 1)],
    [("u", .ref 0), ("v", .ref 0)],
    [("u", .ref 1), ("v", .ref 2)]]⟩

/-- The common tree unfolding of both roots of `sharedHeap`. -/
def sharedTree : JSVal :=
  .object false
    [("u", .object false [("p", .number 1)]),
     ("v", .object false [("p", .number 1)])]

/-! ### Statement-side definitions and concrete example data -/

/-- The file-relevance predicate as the specification describes it: a JS/TS
extension, no excluded directory segment before the filename, none of the
excluded infix patterns anywhere in the path, no excluded filename prefix,
and a filename that is neither manifest nor lockfile. -/
def isRelevantSpec (file : String) : Bool :=
  JS_TS_EXTENSIONS.contains (pathExtname file) &&
  !(EXCLUDED_DIRECTORIES.any (fun d => ((pathSegments file).dropLast).contains d)) &&
  !(EXCLUDED_FILE_PATTERNS.any (fun p => jsIncludes file p)) &&
  !(EXCLUDED_FILE_START_PATTERNS.any (fun p => jsStartsWith (pathBasename file) p)) &&
  !(pathBasename file == "package.json" || pathBasename file == "package-lock.json")

/-- The six dependency sections of a manifest named by the specification. -/
def manifestSections : List String :=
  ["dependencies", "devDependencies", "peerDependencies", "optionalDependencies",
   "bundleDependencies", "bundledDependencies"]

/-- The entry of a lockfile's modern `packages` map at `key` (resolving the
`|| \x7b\x7d` default the source applies). -/
def lockEntry (lock : JSVal) (key : String) : JSVal :=
  jsGet (jsOr (jsGet lock "packages") emptyObj) key

/-- A changed key that carries a dev marker in the sense of the
specification: the head entry is present and dev-marked, or the package was
removed and its base entry was dev-marked. -/
def devMarkedKey (baseLock headLock : JSVal) (key : String) : Bool :=
  (truthy (lockEntry headLock key) && truthy (jsGet (lockEntry headLock key) "dev")) ||
  (!truthy (lockEntry headLock key) && truthy (lockEntry baseLock key) &&
    truthy (jsGet (lockEntry baseLock key) "dev"))

/-- A changed key that counts as a production change in the sense of the
specification: the head entry exists and lacks a dev marker, or the package
was removed while its base entry lacked a dev marker. -/
def productionKey (baseLock headLock : JSVal) (key : String) : Bool :=
  (truthy (lockEntry headLock key) && !truthy (jsGet (lockEntry headLock key) "dev")) ||
  (truthy (lockEntry baseLock key) && !truthy (lockEntry headLock key) &&
    !truthy (jsGet (lockEntry baseLock key) "dev"))

/-- A classifier input in which only the lockfile changed: a pull-request
event with two valid revisions, a changed-file list naming only
`package-lock.json`, and both lockfile contents fetched and parsed. -/
def lockOnlyInput (baseLock headLock : JSVal) (includeDev : Bool) : ClassifierInput :=
  ⟨true, some "aaaaaaa", some "1234567", some ["package-lock.json"], includeDev,
   none, none, some (some baseLock), some (some headLock)⟩

/-- A classifier input in which only the manifest changed: a pull-request
event with two valid revisions, a changed-file list naming only
`package.json`, and both manifest contents fetched and parsed. -/
def manifestOnlyInput (basePackageJson headPackageJson : JSVal) (includeDev : Bool) :
    ClassifierInput :=
  ⟨true, some "aaaaaaa", some "1234567", some ["package.json"], includeDev,
   some (some basePackageJson), some (some headPackageJson), none, none⟩

/-- Base `packages` map for the peer-flag example: a root entry and one
package. -/
def peerBasePackages : JSVal :=
  .object false
    [("", .object false [("name", .string "app")]),
     ("node_modules/foo", .object false [("version", .string "1.0.0")])]

/-- Head `packages` map for the peer-flag example: identical except that the
package gained `peer: true`. -/
def peerHeadPackages : JSVal :=
  .object false
    [("", .object false [("name", .string "app")]),
     ("node_modules/foo", .object false
       [("version", .string "1.0.0"), ("peer", .boolean true)])]

/-- The two lockfiles of the peer-flag example. -/
def peerFlipBaseLock : JSVal := .object false [("packages", peerBasePackages)]

/-- Head lockfile of the peer-flag example. -/
def peerFlipHeadLock : JSVal := .object false [("packages", peerHeadPackages)]

/-- Classifier input for the peer-flag example. -/
def peerFlipInput : ClassifierInput :=
  lockOnlyInput peerFlipBaseLock peerFlipHeadLock false

/-- Base lockfile of the dev-fold example: one dev-marked package. -/
def devBumpBaseLock : JSVal :=
  .object false
    [("packages", .object false
      [("", .object false [("name", .string "app")]),
       ("node_modules/jest", .object false
         [("version", .string "29.0.0"), ("dev", .boolean true)])])]

/-- Head lockfile of the dev-fold example: the dev-marked package bumped. -/
def devBumpHeadLock : JSVal :=
  .object false
    [("packages", .object false
      [("", .object false [("name", .string "app")]),
       ("node_modules/jest", .object false
         [("version", .string "29.5.0"), ("dev", .boolean true)])])]

/-- Base manifest of the metadata-insensitivity example. -/
def versionBumpBaseManifest : JSVal :=
  .object false
    [("version", .string "1.0.0"),
     ("dependencies", .object false [("express", .string "^4.18.0")])]

/-- Head manifest of the metadata-insensitivity example: only `version`
changed. -/
def versionBumpHeadManifest : JSVal :=
  .object false
    [("version", .string "1.0.1"),
     ("dependencies", .object false [("express", .string "^4.18.0")])]

/-- Classifier input in which the head manifest was fetched but does not
parse. -/
def unparsableHeadInput : ClassifierInput :=
  ⟨true, some "aaaaaaa", some "1234567", some ["package.json"], false,
   some (some versionBumpBaseManifest), some none, none, none⟩

/-- Classifier input whose base revision identifier is not a 7-40 character
hex string, so that `sanitizeSHA` throws inside the classifier. -/
def invalidRefInput : ClassifierInput :=
  ⟨true, some "xyz", some "1234567", none, false, none, none, none, none⟩

/-- Manifest pair for the array/object conflation example: the
`bundleDependencies` section flips from the array `["x"]` to the
index-keyed object with the same element. -/
def bundleArrayBase : JSVal :=
  .object false [("bundleDependencies", .object true [("0", .string "x")])]

/-- Head manifest of the conflation example. -/
def bundleObjectHead : JSVal :=
  .object false [("bundleDependencies", .object false [("0", .string "x")])]

/-- Classifier input for the conflation example. -/
def bundleSwapInput : ClassifierInput :=
  manifestOnlyInput bundleArrayBase bundleObjectHead false

/-! ## Helper lemmas -/

/-- Membership in the deduplicating `Set.add` step. -/
theorem mem_addUnique {acc : List String} {f x : String} :
    x ∈ addUnique acc f ↔ x ∈ acc ∨ x = f := by
  by_cases h : f ∈ acc
  · rw [addUnique, if_pos (List.elem_iff.mpr h)]
    exact ⟨Or.inl, fun h2 => h2.elim id (fun e => e ▸ h)⟩
  · rw [addUnique, if_neg (fun hc => h (List.elem_iff.mp hc))]
    simp [List.mem_append]

/-- The `Set.add` step preserves freedom from duplicates. -/
theorem nodup_addUnique {acc : List String} (h : acc.Nodup) (f : String) :
    (addUnique acc f).Nodup := by
  by_cases hm : f ∈ acc
  · rwa [addUnique, if_pos (List.elem_iff.mpr hm)]
  · rw [addUnique, if_neg (fun hc => hm (List.elem_iff.mp hc))]
    simpa [List.nodup_append, h] using hm

/-- Membership after folding `addUnique` over a list. -/
theorem mem_foldl_addUnique (l : List String) (acc : List String) (x : String) :
    x ∈ l.foldl addUnique acc ↔ x ∈ acc ∨ x ∈ l := by
  induction l generalizing acc with
  | nil => simp
  | cons f rest ih =>
    rw [List.foldl_cons, ih, mem_addUnique]
    simp only [List.mem_cons]
    tauto

/-- Folding `addUnique` preserves freedom from duplicates. -/
theorem nodup_foldl_addUnique (l : List String) {acc : List String} (h : acc.Nodup) :
    (l.foldl addUnique acc).Nodup := by
  induction l generalizing acc with
  | nil => simpa
  | cons f rest ih => exact ih (nodup_addUnique h f)

/-- Membership in the union of a list of file lists, as accumulated by the
aggregator's nested fold. -/
theorem mem_foldl_collect (ls : List (List String)) (acc : List String) (x : String) :
    x ∈ ls.foldl (fun a fs => fs.foldl addUnique a) acc ↔ x ∈ acc ∨ ∃ fs ∈ ls, x ∈ fs := by
  induction ls generalizing acc with
  | nil => simp
  | cons fs rest ih =>
    rw [List.foldl_cons, ih, mem_foldl_addUnique]
    simp [or_assoc]

/-- The nested fold produces no duplicates. -/
theorem nodup_foldl_collect (ls : List (List String)) {acc : List String} (h : acc.Nodup) :
    (ls.foldl (fun a fs => fs.foldl addUnique a) acc).Nodup := by
  induction ls generalizing acc with
  | nil => simpa
  | cons fs rest ih => exact ih (nodup_foldl_addUnique fs h)

/-- Every early `return` of the package.json block carries the conservative
verdict. -/
theorem packageJsonStep_ret (includeDev : Bool) (baseRaw headRaw : RawFile)
    (prod dev : Bool) (v : Verdict)
    (h : packageJsonStep includeDev baseRaw headRaw prod dev = .ret v) :
    v = ⟨true, false⟩ := by
  unfold packageJsonStep at h
  rcases baseRaw with _ | bp <;> rcases headRaw with _ | hp <;> simp_all
  rcases bp with _ | b <;> rcases hp with _ | h2 <;> simp_all
  split at h <;> simp_all

/-! ## C9 -/

/-- C9 (counterexample): the input `" "` trims to the empty string, yet the
file-path sanitizer accepts it and returns the empty cleaned path — the
emptiness check (`!filePath`) runs before trimming, so a whitespace-only
path is not rejected, contradicting the claim that every input with an
empty trimmed form fails. -/
theorem c9_whitespace_path_counterexample :
    jsTrim " " = "" ∧ sanitizeFilePath " " "filePath" = .ok "" := ⟨rfl, rfl⟩

/-- C9 (amended): the file-path sanitizer fails when the input is the empty
string, when the trimmed value contains a dangerous shell character, a `..`
segment, a leading `/`, or a leading `-`; a non-empty whitespace-only input,
however, trims to the empty string and is returned as the cleaned path. -/
theorem c9_sanitize_file_path_rejections :
    ∀ (filePath pathName : String),
      (filePath = "" → (sanitizeFilePath filePath pathName).isOk = false) ∧
      (hasShellChar (jsTrim filePath) = true → (sanitizeFilePath filePath pathName).isOk = false) ∧
      (jsIncludes (jsTrim filePath) ".." = true → (sanitizeFilePath filePath pathName).isOk = false) ∧
      (jsStartsWith (jsTrim filePath) "/" = true → (sanitizeFilePath filePath pathName).isOk = false) ∧
      (jsStartsWith (jsTrim filePath) "-" = true → (sanitizeFilePath filePath pathName).isOk = false) ∧
      (filePath ≠ "" → jsTrim filePath = "" → sanitizeFilePath filePath pathName = .ok "") := by
  intro filePath pathName
  refine ⟨?_, ?_, ?_, ?_, ?_, ?_⟩
  · intro h
    subst h
    rfl
  · intro h
    unfold sanitizeFilePath
    split_ifs <;> simp_all [Except.isOk, Except.toBool]
    all_goals (split_ifs <;> rfl)
  · intro h
    unfold sanitizeFilePath
    split_ifs <;> simp_all [Except.isOk, Except.toBool]
    all_goals (split_ifs <;> rfl)
  · intro h
    unfold sanitizeFilePath
    split_ifs <;> simp_all [Except.isOk, Except.toBool]
    all_goals (split_ifs <;> rfl)
  · intro h
    unfold sanitizeFilePath
    split_ifs <;> simp_all [Except.isOk, Except.toBool]
    all_goals (split_ifs <;> rfl)
  · intro h1 h2
    unfold sanitizeFilePath
    rw [h2]
    simp [h1, hasShellChar, jsIncludes, jsStartsWith, charsInfixOf, charsPrefixOf]

/-- C9 (witness): the amended theorem applied to concrete inputs — a `..`
path is rejected, and the whitespace-only path is accepted with an empty
cleaned value. -/
theorem c9_sanitize_file_path_rejections_witness :
    (sanitizeFilePath "../etc/passwd" "filePath").isOk = false ∧
    sanitizeFilePath " " "filePath" = .ok "" :=
  ⟨(c9_sanitize_file_path_rejections "../etc/passwd" "filePath").2.2.1 (by rfl),
   (c9_sanitize_file_path_rejections " " "filePath").2.2.2.2.2 (by simp) (by rfl)⟩

/-! ## C8 -/

/-- C8 (counterexample): with a base revision identifier that fails
sanitization (`"xyz"` is not 7-40 hex characters), the body of the
dependency-change classification raises the validation error — yet the
classification call itself does not abort: its catch-all converts the error
into the conservative verdict, so the caller receives
`hasChanges = true, onlyDevDependencies = false` instead of a propagated
exception, contradicting the claimed contrast with parse errors. -/
theorem c8_validation_error_counterexample :
    (sanitizeSHA "xyz" "baseRef").isOk = false ∧
    (hasPackageDependencyChangesCore invalidRefInput).isOk = false ∧
    hasPackageDependencyChanges invalidRefInput = ⟨true, false⟩ := ⟨rfl, rfl, rfl⟩

/-- C8 (amended): when reference sanitization fails inside the
dependency-change classification (the base revision is non-empty but not a
7-40 character hex string after trimming), the validation error is raised
inside the body but caught at the classifier boundary and converted into
the conservative verdict, exactly as parse and collaborator errors are;
no error propagates out of the classification call. -/
theorem c8_validation_error_converted :
    ∀ (inp : ClassifierInput) (b : String),
      inp.eventIsPR = true →
      inp.baseRef = some b →
      (b == "") = false →
      optStrTruthy inp.headRef = true →
      shaPatternTest (jsTrim b) = false →
      (hasPackageDependencyChangesCore inp).isOk = false ∧
      hasPackageDependencyChanges inp = ⟨true, false⟩ := by
  intro inp b h1 h2 h3 h4 h5
  have hcore : hasPackageDependencyChangesCore inp =
      .error ("Invalid baseRef format: " ++ jsTrim b ++
        ". Must be a valid git SHA (7-40 hex characters)") := by
    unfold hasPackageDependencyChangesCore
    rw [h1, h2]
    have hb : optStrTruthy (some b) = true := by simp [optStrTruthy, h3]
    rw [hb, h4]
    simp [sanitizeSHA, h3, h5]
  refine ⟨?_, ?_⟩
  · rw [hcore]
    rfl
  · unfold hasPackageDependencyChanges
    rw [hcore]

/-- C8 (witness): the amended theorem applied to the concrete invalid-ref
input. -/
theorem c8_validation_error_converted_witness :
    (hasPackageDependencyChangesCore invalidRefInput).isOk = false ∧
    hasPackageDependencyChanges invalidRefInput = ⟨true, false⟩ :=
  c8_validation_error_converted invalidRefInput "xyz" rfl rfl rfl rfl rfl

/-! ## C6 -/

/-- Unfolding of membership in the relevant-extension list. -/
theorem relevant_contains (e : String) :
    RELEVANT_EXTENSIONS.contains e =
      (JS_TS_EXTENSIONS.contains e || (e == ".json")) := by
  rw [Bool.eq_iff_iff, Bool.or_eq_true, List.elem_iff, List.elem_iff, beq_iff_eq]
  simp [RELEVANT_EXTENSIONS, JS_TS_EXTENSIONS, List.mem_append]
  tauto

/-- Unfolding of membership in the package-filename list. -/
theorem package_filenames_contains (b : String) :
    PACKAGE_FILENAMES.contains b =
      (b == "package.json" || b == "package-lock.json") := by
  rw [Bool.eq_iff_iff, Bool.or_eq_true, List.elem_iff, beq_iff_eq, beq_iff_eq]
  simp [PACKAGE_FILENAMES]

/-- C6: the file-relevance predicate holds exactly when the path has a JS/TS
extension, no excluded directory segment sits before the filename, the path
contains none of the excluded infix patterns, the filename starts with none
of the excluded prefixes, and the filename is neither `package.json` nor
`package-lock.json` (`isRelevantSpec` spells out exactly this conjunction);
in particular the manifest and lockfile filenames are never relevant. -/
theorem c6_relevance_characterization :
    (∀ file : String, isRelevantFile file = isRelevantSpec file) ∧
    (∀ file : String,
      pathBasename file = "package.json" ∨ pathBasename file = "package-lock.json" →
      isRelevantFile file = false) := by
  have main : ∀ file : String, isRelevantFile file = isRelevantSpec file := by
    intro file
    simp only [isRelevantFile, isRelevantSpec]
    rw [relevant_contains, package_filenames_contains]
    cases hjs : JS_TS_EXTENSIONS.contains (pathExtname file) <;>
      cases hjson : (pathExtname file == ".json") <;>
        cases hd : EXCLUDED_DIRECTORIES.any (fun d => ((pathSegments file).dropLast).contains d) <;>
          cases hp : EXCLUDED_FILE_PATTERNS.any (fun p => jsIncludes file p) <;>
            cases hs : EXCLUDED_FILE_START_PATTERNS.any (fun p => jsStartsWith (pathBasename file) p) <;>
              cases hpkg : (pathBasename file == "package.json" ||
                pathBasename file == "package-lock.json") <;>
                simp_all
  refine ⟨main, fun file h => ?_⟩
  rw [main]
  unfold isRelevantSpec
  rcases h with h | h <;> rw [h] <;> simp

/-- C6 (witness): the characterization applied at concrete paths — the
manifest filename itself is never relevant, and a plain source file agrees
with the specification predicate. -/
theorem c6_relevance_characterization_witness :
    isRelevantFile "package.json" = false ∧
    isRelevantFile "src/index.js" = isRelevantSpec "src/index.js" :=
  ⟨c6_relevance_characterization.2 "package.json" (Or.inl rfl),
   c6_relevance_characterization.1 "src/index.js"⟩

/-! ## C5 -/

/-- C5: the aggregator skips a commit exactly when the keyword is non-empty
and the lower-cased message contains the lower-cased keyword; the returned
files are the deduplicated union of the per-commit file lists of the
non-skipped commits; `skippedCommits` counts the skipped commits and
`totalCommits` the whole list; and on the three-commit example (commit 1
skip-marked touching a.js, commits 2 and 3 touching b.js and a.js) the
result is the set of b.js and a.js with one skipped of three. -/
theorem c5_skip_aggregation :
    (∀ (skipKeyword : String) (commits : List Commit) (fetchFiles : String → List String),
      (∀ f, f ∈ (getChangedFilesWithSkipSupport skipKeyword commits fetchFiles).files ↔
        ∃ c ∈ commits, shouldSkipCommit skipKeyword c = false ∧ f ∈ fetchFiles c.sha) ∧
      (getChangedFilesWithSkipSupport skipKeyword commits fetchFiles).files.Nodup ∧
      (getChangedFilesWithSkipSupport skipKeyword commits fetchFiles).skippedCommits =
        commits.countP (fun c => !(skipKeyword == "") &&
          jsIncludes (jsToLower c.message) (jsToLower skipKeyword)) ∧
      (getChangedFilesWithSkipSupport skipKeyword commits fetchFiles).totalCommits =
        commits.length ∧
      (skipKeyword = "" → ∀ c, shouldSkipCommit skipKeyword c = false)) ∧
    getChangedFilesWithSkipSupport "[skip version]"
      [⟨"1111111", "update a [Skip Version]"⟩, ⟨"2222222", "change b"⟩,
       ⟨"3333333", "change a again"⟩]
      (fun sha => if sha == "1111111" then ["a.js"]
        else if sha == "2222222" then ["b.js"] else ["a.js"])
      = ⟨["b.js", "a.js"], 1, 3⟩ := by
  constructor
  · intro skipKeyword commits fetchFiles
    by_cases hempty : commits.isEmpty
    · have hnil : commits = [] := List.isEmpty_iff.mp hempty
      subst hnil
      refine ⟨?_, ?_, ?_, ?_, ?_⟩
      · simp [getChangedFilesWithSkipSupport]
      · simp [getChangedFilesWithSkipSupport]
      · simp [getChangedFilesWithSkipSupport]
      · simp [getChangedFilesWithSkipSupport]
      · intro hk c
        simp [shouldSkipCommit, hk]
    · have h1 : getChangedFilesWithSkipSupport skipKeyword commits fetchFiles =
          ⟨((commits.filter (fun c => !shouldSkipCommit skipKeyword c)).map
              (fun c => fetchFiles c.sha)).foldl (fun acc fs => fs.foldl addUnique acc) [],
            (commits.filter (fun c => shouldSkipCommit skipKeyword c)).length,
            commits.length⟩ := by
        unfold getChangedFilesWithSkipSupport
        rw [if_neg hempty]
      rw [h1]
      refine ⟨?_, ?_, ?_, rfl, ?_⟩
      · intro f
        rw [mem_foldl_collect]
        simp only [List.mem_map, List.mem_filter, List.not_mem_nil, false_or]
        constructor
        · rintro ⟨fs, ⟨c, ⟨hc, hns⟩, rfl⟩, hf⟩
          exact ⟨c, hc, by simpa using hns, hf⟩
        · rintro ⟨c, hc, hns, hf⟩
          exact ⟨fetchFiles c.sha, ⟨c, ⟨hc, by simpa using hns⟩, rfl⟩, hf⟩
      · exact nodup_foldl_collect _ List.nodup_nil
      · rw [List.countP_eq_length_filter]
        rfl
      · intro hk c
        simp [shouldSkipCommit, hk]
  · decide

/-- C5 (witness): the aggregation theorem applied at concrete inputs — a
file of a non-skipped commit is in the returned set, and with an empty
keyword no commit is skipped. -/
theorem c5_skip_aggregation_witness :
    ("b.js" ∈ (getChangedFilesWithSkipSupport "x" [⟨"1234567", "m"⟩] (fun _ => ["b.js"])).files) ∧
    (∀ c, shouldSkipCommit "" c = false) := by
  constructor
  · exact ((c5_skip_aggregation.1 "x" [⟨"1234567", "m"⟩] (fun _ => ["b.js"])).1 "b.js").mpr
      ⟨⟨"1234567", "m"⟩, by simp, by decide, by decide⟩
  · exact fun c => (c5_skip_aggregation.1 "" [] (fun _ => [])).2.2.2.2 rfl c

/-! ## C3 -/

/-- C3: when the six dependency sections of two parseable manifests are
pairwise deeply equal, the manifest block reports neither a production nor a
dev change (it passes both flags through untouched), and the classification
of such a pair yields the no-change verdict — whatever the other manifest
fields contain, since only the six sections are ever inspected. -/
theorem c3_manifest_metadata_insensitivity :
    ∀ (basePackageJson headPackageJson : JSVal) (includeDev prod dev : Bool),
      (∀ sec ∈ manifestSections,
        deepEqual (jsGet basePackageJson sec) (jsGet headPackageJson sec) = true) →
      packageJsonStep includeDev (some (some basePackageJson)) (some (some headPackageJson))
        prod dev = .cont prod dev ∧
      hasPackageDependencyChanges
        (manifestOnlyInput basePackageJson headPackageJson includeDev) = ⟨false, false⟩ := by
  intro base head includeDev prod dev h
  have hstep : ∀ p d : Bool,
      packageJsonStep includeDev (some (some base)) (some (some head)) p d = .cont p d := by
    intro p d
    have hall : productionSections.any
        (fun sec => !deepEqual (jsGet base sec) (jsGet head sec)) = false := by
      rw [List.any_eq_false]
      intro sec hsec
      have hm : sec ∈ manifestSections := by
        simp only [productionSections, List.mem_cons, List.not_mem_nil, or_false] at hsec
        rcases hsec with rfl | rfl | rfl | rfl | rfl <;> simp [manifestSections]
      simp [h sec hm]
    have hdev : deepEqual (jsGet base "devDependencies") (jsGet head "devDependencies") = true :=
      h "devDependencies" (by simp [manifestSections])
    unfold packageJsonStep
    simp [hall, hdev]
  have e1 : sanitizeSHA "aaaaaaa" "baseRef" = .ok "aaaaaaa" := rfl
  have e2 : sanitizeSHA "1234567" "headRef" = .ok "1234567" := rfl
  have e3 : shouldCheckPackageJson (some ["package.json"]) = true := rfl
  have e4 : shouldCheckPackageLock (some ["package.json"]) = false := rfl
  refine ⟨hstep prod dev, ?_⟩
  unfold hasPackageDependencyChanges hasPackageDependencyChangesCore manifestOnlyInput
  simp [optStrTruthy, e1, e2, e3, e4, hstep false false]

/-- C3 (witness): the theorem applied to two concrete manifests that differ
only in their `version` field. -/
theorem c3_manifest_metadata_insensitivity_witness :
    packageJsonStep false (some (some versionBumpBaseManifest))
      (some (some versionBumpHeadManifest)) false false = .cont false false ∧
    hasPackageDependencyChanges
      (manifestOnlyInput versionBumpBaseManifest versionBumpHeadManifest false) =
      ⟨false, false⟩ :=
  c3_manifest_metadata_insensitivity versionBumpBaseManifest versionBumpHeadManifest
    false false false (by decide)

/-! ## C4 -/

/-- C4: whenever the classification actually compares a package file — the
event and revisions are valid, the file is selected by the changed-file
filter, and both revisions' contents were fetched — but at least one of the
two contents fails JSON parsing, the classification returns exactly the
conservative verdict (hasChanges true, onlyDevDependencies false) instead of
skipping the check or propagating the parse error. -/
theorem c4_parse_failure_forces_bump :
    ∀ (inp : ClassifierInput),
      inp.eventIsPR = true →
      optStrTruthy inp.baseRef = true →
      optStrTruthy inp.headRef = true →
      (sanitizeSHA (inp.baseRef.getD "") "baseRef").isOk = true →
      (sanitizeSHA (inp.headRef.getD "") "headRef").isOk = true →
      ((shouldCheckPackageJson inp.changedFiles = true ∧
        ∃ pb ph, inp.basePackageJsonRaw = some pb ∧ inp.headPackageJsonRaw = some ph ∧
          (pb = none ∨ ph = none)) ∨
       (shouldCheckPackageLock inp.changedFiles = true ∧
        ∃ lb lh, inp.basePackageLockRaw = some lb ∧ inp.headPackageLockRaw = some lh ∧
          (lb = none ∨ lh = none))) →
      hasPackageDependencyChanges inp = ⟨true, false⟩ := by
  intro inp h1 h2 h3 h4 h5 h6
  obtain ⟨sb, hsb⟩ : ∃ s, sanitizeSHA (inp.baseRef.getD "") "baseRef" = .ok s := by
    cases hx : sanitizeSHA (inp.baseRef.getD "") "baseRef" with
    | ok s => exact ⟨s, rfl⟩
    | error e => rw [hx] at h4; simp [Except.isOk, Except.toBool] at h4
  obtain ⟨sh2, hsh⟩ : ∃ s, sanitizeSHA (inp.headRef.getD "") "headRef" = .ok s := by
    cases hx : sanitizeSHA (inp.headRef.getD "") "headRef" with
    | ok s => exact ⟨s, rfl⟩
    | error e => rw [hx] at h5; simp [Except.isOk, Except.toBool] at h5
  unfold hasPackageDependencyChanges hasPackageDependencyChangesCore
  rw [h1, hsb, hsh]
  simp only [h2, h3, Bool.not_true, Bool.or_self, Bool.false_eq_true, if_false]
  rcases h6 with ⟨hcp, pb, ph, hbp, hhp, hone⟩ | ⟨hcl, lb, lh, hbl, hhl, hone⟩
  · rw [hcp, hbp, hhp]
    have hguard : (!true && !shouldCheckPackageLock inp.changedFiles) = false := by simp
    rw [hguard]
    rcases hone with rfl | rfl
    · simp [packageJsonStep]
    · cases pb <;> simp [packageJsonStep]
  · rw [hcl, hbl, hhl]
    have hguard : (!shouldCheckPackageJson inp.changedFiles && !true) = false := by simp
    rw [hguard]
    simp only [Bool.false_eq_true, if_false]
    cases hstep1 : (if shouldCheckPackageJson inp.changedFiles = true then
        packageJsonStep inp.includeDevDependencies inp.basePackageJsonRaw
          inp.headPackageJsonRaw false false
      else .cont false false) with
    | ret v =>
      have hv : v = ⟨true, false⟩ := by
        split at hstep1
        · exact packageJsonStep_ret _ _ _ _ _ _ hstep1
        · exact absurd hstep1 (by simp)
      rw [hv]
    | cont p d =>
      rcases hone with rfl | rfl
      · simp [packageLockStep]
      · cases lb <;> simp [packageLockStep]

/-- C4 (witness): the theorem applied to a concrete input whose head
manifest was fetched at both revisions but does not parse. -/
theorem c4_parse_failure_forces_bump_witness :
    hasPackageDependencyChanges unparsableHeadInput = ⟨true, false⟩ :=
  c4_parse_failure_forces_bump unparsableHeadInput rfl rfl rfl rfl rfl
    (Or.inl ⟨rfl, some versionBumpBaseManifest, none, rfl, rfl, Or.inr rfl⟩)

/-! ## C1 -/

/-- Membership in the changed-key set computed by `getChangedPackageKeys`. -/
theorem mem_getChangedPackageKeys {baseObj headObj : JSVal} {key : String} :
    key ∈ getChangedPackageKeys baseObj headObj ↔
      (key ∈ jsKeys (jsOr baseObj emptyObj) ∨ key ∈ jsKeys (jsOr headObj emptyObj)) ∧
      ¬key = "" ∧
      deepEqual (jsGet baseObj key) (jsGet headObj key) = false ∧
      isOnlyMetadataChange (jsGet baseObj key) (jsGet headObj key) = false := by
  unfold getChangedPackageKeys
  rw [List.mem_filter, mem_foldl_addUnique]
  simp only [List.not_mem_nil, false_or, List.mem_append, Bool.and_eq_true,
    Bool.not_eq_true', beq_iff_eq, Bool.not_eq_true, beq_eq_false_iff_ne, ne_eq]
  tauto

/-- The classifier body specialised to an input whose changed-file list
names only the lockfile: everything reduces to the lockfile block started
with clear flags. -/
theorem core_lockOnly (baseLock headLock : JSVal) (includeDev : Bool) :
    hasPackageDependencyChangesCore (lockOnlyInput baseLock headLock includeDev) =
      (match packageLockStep includeDev (some (some baseLock)) (some (some headLock)) false false with
       | .ret v => .ok v
       | .cont prod dev =>
          .ok (if prod then ⟨true, false⟩ else if dev then ⟨false, true⟩ else ⟨false, false⟩)) := by
  have e1 : sanitizeSHA "aaaaaaa" "baseRef" = .ok "aaaaaaa" := rfl
  have e2 : sanitizeSHA "1234567" "headRef" = .ok "1234567" := rfl
  have e3 : shouldCheckPackageJson (some ["package-lock.json"]) = false := rfl
  have e4 : shouldCheckPackageLock (some ["package-lock.json"]) = true := rfl
  have e5 : optStrTruthy (some "aaaaaaa") = true := rfl
  have e6 : optStrTruthy (some "1234567") = true := rfl
  unfold hasPackageDependencyChangesCore
  simp only [lockOnlyInput, Option.getD_some, e1, e2, e3, e4, e5, e6,
    Bool.not_true, Bool.not_false, Bool.or_self, Bool.and_false, Bool.false_eq_true,
    Bool.true_and, if_false, if_true]

/-- C1: a key whose two entries are both present but deeply unequal while
agreeing on all five significant fields (version, resolved, integrity,
dependencies, requires) is dropped from the changed-key set entirely; when
every differing key is metadata-only in this sense the changed-key set is
empty; and on the concrete peer-flag example (a peer marker flipped on an
otherwise identical entry) the set is empty and the whole lockfile
classification returns the no-change verdict. -/
theorem c1_metadata_only_changes_dropped :
    (∀ (baseObj headObj : JSVal) (key : String),
      truthy (jsGet baseObj key) = true →
      truthy (jsGet headObj key) = true →
      deepEqual (jsGet baseObj key) (jsGet headObj key) = false →
      (∀ prop ∈ significantProps,
        deepEqual (jsGet (jsGet baseObj key) prop) (jsGet (jsGet headObj key) prop) = true) →
      key ∉ getChangedPackageKeys baseObj headObj) ∧
    (∀ baseObj headObj : JSVal,
      (∀ key : String, ¬key = "" →
        deepEqual (jsGet baseObj key) (jsGet headObj key) = false →
        isOnlyMetadataChange (jsGet baseObj key) (jsGet headObj key) = true) →
      getChangedPackageKeys baseObj headObj = []) ∧
    (getChangedPackageKeys peerBasePackages peerHeadPackages = [] ∧
      hasPackageDependencyChanges peerFlipInput = ⟨false, false⟩) := by
  refine ⟨?_, ?_, by decide, by decide⟩
  · intro baseObj headObj key htb hth hde hprops hmem
    rcases mem_getChangedPackageKeys.mp hmem with ⟨-, -, -, hmeta⟩
    have hmo : isOnlyMetadataChange (jsGet baseObj key) (jsGet headObj key) = true := by
      unfold isOnlyMetadataChange
      rw [htb, hth]
      simp only [Bool.not_true, Bool.or_self, Bool.false_eq_true, if_false]
      rw [List.all_eq_true]
      exact hprops
    rw [hmo] at hmeta
    simp at hmeta
  · intro baseObj headObj hmeta
    rw [List.eq_nil_iff_forall_not_mem]
    intro key hk
    rcases mem_getChangedPackageKeys.mp hk with ⟨-, hne, hde, hmo⟩
    rw [hmeta key hne hde] at hmo
    simp at hmo

/-- C1 (witness): the dropping theorem applied to the concrete peer-flag
entries, together with the derived empty changed-key set. -/
theorem c1_metadata_only_changes_dropped_witness :
    "node_modules/foo" ∉ getChangedPackageKeys peerBasePackages peerHeadPackages ∧
    getChangedPackageKeys peerBasePackages peerHeadPackages = [] :=
  ⟨c1_metadata_only_changes_dropped.1 peerBasePackages peerHeadPackages "node_modules/foo"
      (by decide) (by decide) (by decide) (by decide),
   c1_metadata_only_changes_dropped.2.2.1⟩

/-! ## C10 -/

/-- C10: `deepEqual` cannot tell an array from a plain object with the same
index keys — the array `["x"]` and the plain object mapping key "0" to "x"
compare deeply equal (`typeof` and `Object.keys` agree on both and nothing
else is inspected) — and consequently a manifest whose `bundleDependencies`
section flips between those two shapes classifies as having no dependency
change at all. -/
theorem c10_array_object_conflation :
    deepEqual (.object true [("0", .string "x")]) (.object false [("0", .string "x")]) = true ∧
    hasPackageDependencyChanges bundleSwapInput = ⟨false, false⟩ :=
  ⟨by decide, by decide⟩

/-! ## C2 -/

/-- A conjunction over a list is false once one member fails it. -/
theorem all_eq_false_of_mem {α : Type} {l : List α} {p : α → Bool} {x : α}
    (hx : x ∈ l) (hp : p x = false) : l.all p = false := by
  cases h : l.all p
  · rfl
  · rw [List.all_eq_true] at h
    rw [h x hx] at hp
    cases hp

/-- A dev-marked key satisfies the per-key test of
`areAllChangesDevDependencies`. -/
theorem devMarkedKey_passes (baseLock headLock : JSVal) (key : String)
    (hd : devMarkedKey baseLock headLock key = true) :
    (!(truthy (jsGet (jsOr (jsGet headLock "packages") emptyObj) key) &&
        !truthy (jsGet (jsGet (jsOr (jsGet headLock "packages") emptyObj) key) "dev")) &&
     !(truthy (jsGet (jsOr (jsGet baseLock "packages") emptyObj) key) &&
        !truthy (jsGet (jsOr (jsGet headLock "packages") emptyObj) key) &&
        !truthy (jsGet (jsGet (jsOr (jsGet baseLock "packages") emptyObj) key) "dev"))) = true := by
  unfold devMarkedKey lockEntry at hd
  cases hA : truthy (jsGet (jsOr (jsGet headLock "packages") emptyObj) key) <;>
    cases hB : truthy (jsGet (jsGet (jsOr (jsGet headLock "packages") emptyObj) key) "dev") <;>
      cases hC : truthy (jsGet (jsOr (jsGet baseLock "packages") emptyObj) key) <;>
        cases hD : truthy (jsGet (jsGet (jsOr (jsGet baseLock "packages") emptyObj) key) "dev") <;>
          simp_all

/-- A production key fails the per-key test of
`areAllChangesDevDependencies`. -/
theorem productionKey_fails (baseLock headLock : JSVal) (key : String)
    (hp : productionKey baseLock headLock key = true) :
    (!(truthy (jsGet (jsOr (jsGet headLock "packages") emptyObj) key) &&
        !truthy (jsGet (jsGet (jsOr (jsGet headLock "packages") emptyObj) key) "dev")) &&
     !(truthy (jsGet (jsOr (jsGet baseLock "packages") emptyObj) key) &&
        !truthy (jsGet (jsOr (jsGet headLock "packages") emptyObj) key) &&
        !truthy (jsGet (jsGet (jsOr (jsGet baseLock "packages") emptyObj) key) "dev"))) = false := by
  unfold productionKey lockEntry at hp
  cases hA : truthy (jsGet (jsOr (jsGet headLock "packages") emptyObj) key) <;>
    cases hB : truthy (jsGet (jsGet (jsOr (jsGet headLock "packages") emptyObj) key) "dev") <;>
      cases hC : truthy (jsGet (jsOr (jsGet baseLock "packages") emptyObj) key) <;>
        cases hD : truthy (jsGet (jsGet (jsOr (jsGet baseLock "packages") emptyObj) key) "dev") <;>
          simp_all

/-- C2: for a lockfile pair in the modern `packages` shape whose changed-key
set is non-empty, if every changed key is dev-marked (in head when still
present, in base when removed) the classification returns
`hasChanges = false, onlyDevDependencies = true` under `includeDev = false`
and `hasChanges = true, onlyDevDependencies = false` under
`includeDev = true`; while if some changed key has a head entry without a
dev marker, or was removed while its base entry lacked one, the verdict is
`hasChanges = true, onlyDevDependencies = false` for either setting. -/
theorem c2_dev_fold :
    ∀ (baseLock headLock : JSVal),
      (truthy (jsGet headLock "packages") || truthy (jsGet baseLock "packages")) = true →
      deepEqual (jsGet baseLock "packages") (jsGet headLock "packages") = false →
      getChangedPackageKeys (jsGet baseLock "packages") (jsGet headLock "packages") ≠ [] →
      ((∀ key ∈ getChangedPackageKeys (jsGet baseLock "packages") (jsGet headLock "packages"),
          devMarkedKey baseLock headLock key = true) →
        hasPackageDependencyChanges (lockOnlyInput baseLock headLock false) = ⟨false, true⟩ ∧
        hasPackageDependencyChanges (lockOnlyInput baseLock headLock true) = ⟨true, false⟩) ∧
      ((∃ key ∈ getChangedPackageKeys (jsGet baseLock "packages") (jsGet headLock "packages"),
          productionKey baseLock headLock key = true) →
        ∀ includeDev : Bool,
          hasPackageDependencyChanges (lockOnlyInput baseLock headLock includeDev) =
            ⟨true, false⟩) := by
  intro baseLock headLock hmodern hpkgs hne
  have hkeysE : (getChangedPackageKeys (jsGet baseLock "packages")
      (jsGet headLock "packages")).isEmpty = false := by
    rw [List.isEmpty_eq_false]
    exact hne
  constructor
  · intro hdev
    have hall : areAllChangesDevDependencies baseLock headLock
        (getChangedPackageKeys (jsGet baseLock "packages") (jsGet headLock "packages")) = true := by
      unfold areAllChangesDevDependencies
      rw [hmodern]
      simp only [if_true]
      rw [List.all_eq_true]
      intro key hk
      exact devMarkedKey_passes baseLock headLock key (hdev key hk)
    have hstep : ∀ includeDev : Bool,
        packageLockStep includeDev (some (some baseLock)) (some (some headLock)) false false =
          .cont (if includeDev then true else false) true := by
      intro includeDev
      simp only [packageLockStep]
      rw [hpkgs]
      simp only [Bool.not_false, Bool.or_true, if_true, hkeysE, hall]
      simp
    constructor
    · unfold hasPackageDependencyChanges
      rw [core_lockOnly, hstep false]
      rfl
    · unfold hasPackageDependencyChanges
      rw [core_lockOnly, hstep true]
      rfl
  · rintro ⟨key, hk, hkey⟩ includeDev
    have hall : areAllChangesDevDependencies baseLock headLock
        (getChangedPackageKeys (jsGet baseLock "packages") (jsGet headLock "packages")) = false := by
      unfold areAllChangesDevDependencies
      rw [hmodern]
      simp only [if_true]
      exact all_eq_false_of_mem hk (productionKey_fails baseLock headLock key hkey)
    have hstep :
        packageLockStep includeDev (some (some baseLock)) (some (some headLock)) false false =
          .cont true false := by
      simp only [packageLockStep]
      rw [hpkgs]
      simp only [Bool.not_false, Bool.or_true, if_true, hkeysE, hall]
      simp
    unfold hasPackageDependencyChanges
    rw [core_lockOnly, hstep]
    rfl

/-- C2 (witness): the theorem applied to a concrete lockfile pair whose only
change bumps a dev-marked package. -/
theorem c2_dev_fold_witness :
    hasPackageDependencyChanges (lockOnlyInput devBumpBaseLock devBumpHeadLock false) =
      ⟨false, true⟩ ∧
    hasPackageDependencyChanges (lockOnlyInput devBumpBaseLock devBumpHeadLock true) =
      ⟨true, false⟩ :=
  (c2_dev_fold devBumpBaseLock devBumpHeadLock
    (by decide) (by decide) (by decide)).1 (by decide)

/-! ## C7 -/

/-- C7: evaluation of `deepEqual` (heap model, with the shared mutable
`WeakSet` threaded exactly as in the source) on the shared-structure input
`a = \x7bu: x, v: x\x7d` versus `b = \x7bu: \x7bp: 1\x7d, v: \x7bp: 1\x7d\x7d`
with `x = \x7bp: 1\x7d`.  Both roots unfold to the same tree
(`sharedTree`), so they are structurally equal acyclic values — and the
tree-model `deepEqual` indeed accepts that tree against itself — yet the
heap-model run returns `false`: comparing the `u` fields adds the shared
`x` to the `WeakSet`, so when the `v` fields are compared the guard
`visited.has(a)` fires and falls back to reference equality, although the
input is acyclic.  The guard tracks single objects, not the visited pairs
its documentation describes, so it misfires on acyclic sharing. -/
theorem c7_visited_guard_shared_structure :
    toTreeH sharedHeap 4 (.ref 3) = some sharedTree ∧
    toTreeH sharedHeap 4 (.ref 4) = some sharedTree ∧
    (deepEqualH sharedHeap 8 (.ref 3) (.ref 4) []).1 = false ∧
    deepEqual sharedTree sharedTree = true := by
  exact ⟨rfl, rfl, rfl, by decide⟩

end NpmCheck

